import Mathlib

/-!
Verification of the staff day-schedule generation subsystem of the
job-management application (source: `src/client/components/StaffScheduleManager.tsx`).

The TypeScript component is embedded shallowly:

* `HH:MM` strings are kept as Lean `String`s; the JavaScript
  `time.split(":").map(Number)` idiom is modelled by a structural split on the
  character list followed by a decimal parse (`Number` of a digit string).
* JavaScript numbers appearing as latitudes/longitudes are modelled as real
  numbers; integer-valued quantities (minutes, timestamps) as `Int`/`Nat`.
* JavaScript truthiness of optional strings / booleans is modelled explicitly
  (`undefined` and `""` are falsy; `false` is falsy).
* `Math.random()` draws are modelled by an explicit stream `rand : Nat → ℝ`
  consumed left to right, four draws per processed job, exactly as the source
  consumes them.
* date-fns (`parseISO`, `format`, `isSameDay`, `differenceInMinutes`,
  `getTime`) is an external library; a parsed date is modelled as the record of
  the observations the component extracts from it: its `yyyy-MM-dd` day key,
  its `HH:mm` time-of-day, its epoch timestamp, and its distance in minutes
  from 2024-01-01.
* a thrown JavaScript exception is modelled as `Except.error`; the week
  aggregator's `try`/`catch` becomes a `match` on the `Except`.
-/

namespace StaffSchedule

/-! ## JavaScript string and truthiness primitives -/

/-- Splitting a character list on a separator, accumulator-style; models
JavaScript `String.prototype.split` with a one-character separator
(`"a:b".split(":") = ["a","b"]`, `"".split(":") = [""]`). -/
def splitOnChar (sep : Char) : List Char → List Char → List (List Char)
  | [], acc => [acc.reverse]
  | c :: cs, acc => if c = sep then acc.reverse :: splitOnChar sep cs [] else splitOnChar sep cs (c :: acc)

/-- JavaScript `split` on a string, producing character lists of the parts. -/
def jsSplit (s : String) (sep : Char) : List (List Char) :=
  splitOnChar sep s.data []

/-- JavaScript `Number(...)` restricted to non-negative decimal digit strings:
`some n` on a non-empty all-digit string, `none` (modelling `NaN`) otherwise. -/
def jsStringToNat (cs : List Char) : Option Nat :=
  if cs.all (fun c => c.isDigit) && !cs.isEmpty then
    some (cs.foldl (fun n c => n * 10 + (c.toNat - 48)) 0)
  else none

/-- JavaScript truthiness of an optional string: `undefined` and `""` are falsy. -/
def truthyStr : Option String → Bool
  | some s => s != ""
  | none => false

/-- JavaScript `a || b` where `a` is an optional string and `b` a fallback
string: returns `b` when `a` is `undefined` or `""`. -/
def jsOrStr (a : Option String) (b : String) : String :=
  match a with
  | some s => if s = "" then b else s
  | none => b

/-- JavaScript `a || b` where both operands are optional strings (used for the
`riskAddress || RiskAddress` legacy-alias chain). -/
def jsOrOpt (a b : Option String) : Option String :=
  match a with
  | some s => if s = "" then b else some s
  | none => b

/-! ## Time arithmetic helpers (source lines 281-301) -/

/-- Parsing of `time.split(":").map(Number)` with destructuring into
`[hours, mins]`; components that fail to parse are read as `0` (the claims only
quantify over well-formed zero-padded `HH:MM` strings, where the parse is
exact). -/
def parseHM (time : String) : Int × Int :=
  match jsSplit time ':' with
  | [h, m] => (((jsStringToNat h).getD 0 : Int), ((jsStringToNat m).getD 0 : Int))
  | _ => (0, 0)

/-- JavaScript `n.toString().padStart(2, "0")`. -/
def pad2 (n : Int) : String :=
  let s := toString n
  if s.length < 2 then "0" ++ s else s

/-- Embedding of `addMinutes` (source lines 281-287): total minutes, floor
division for the hour, `% 24` wrap, `% 60` for the minute (JavaScript `%` is
truncated remainder, `Math.floor` of a real quotient is `Int.fdiv`). -/
def addMinutes (time : String) (minutes : Int) : String :=
  let hm := parseHM time
  let totalMinutes := hm.1 * 60 + hm.2 + minutes
  let newHours := (totalMinutes.fdiv 60).tmod 24
  let newMins := totalMinutes.tmod 60
  pad2 newHours ++ ":" ++ pad2 newMins

/-- Embedding of `subtractMinutes` (source lines 289-295): same total-minutes
computation but each component is clamped below by `0` with `Math.max` and no
`% 24` wrap is applied. -/
def subtractMinutes (time : String) (minutes : Int) : String :=
  let hm := parseHM time
  let totalMinutes := hm.1 * 60 + hm.2 - minutes
  let newHours := max 0 (totalMinutes.fdiv 60)
  let newMins := max 0 (totalMinutes.tmod 60)
  pad2 newHours ++ ":" ++ pad2 newMins

/-- Embedding of `compareTime` (source lines 297-301). -/
def compareTime (time1 time2 : String) : Int :=
  let a := parseHM time1
  let b := parseHM time2
  a.1 * 60 + a.2 - (b.1 * 60 + b.2)

/-- Zero-padded `HH:MM` rendering of a total number of minutes below 1440; this
is the specification-side formatter used to state the claims about
`addMinutes`/`subtractMinutes`. -/
def formatHM (t : Nat) : String :=
  pad2 ((t / 60 : Nat) : Int) ++ ":" ++ pad2 ((t % 60 : Nat) : Int)

/-! ## Duration policy table (source lines 262-279) -/

/-- Embedding of `getJobDuration`: the `switch` on the optional category
string. An absent category (`undefined`) falls through to the `default` arm. -/
def getJobDuration (category : Option String) : Nat :=
  match category with
  | some "Geyser Replacement" => 180
  | some "Geyser Assessment" => 60
  | some "Leak Detection" => 120
  | some "Drain Blockage" => 90
  | some "Camera Inspection" => 75
  | some "Toilet/Shower" => 90
  | _ => 60

/-! ## Travel-time estimator (source lines 251-260) -/

/-- Embedding of `estimateTravelTime`: Euclidean distance in raw degree space,
scaled by 3000, rounded (JavaScript `Math.round` is `round` of Mathlib:
half-up), clamped to `[15, 60]` by `Math.max(15, Math.min(60, _))`. -/
noncomputable def estimateTravelTime (fromLoc toLoc : ℝ × ℝ) : Int :=
  let distance := Real.sqrt ((toLoc.1 - fromLoc.1) ^ 2 + (toLoc.2 - fromLoc.2) ^ 2)
  max 15 (min 60 (round (distance * 3000)))

/-! ## Data model -/

/-- Observations the component extracts from a parsed date-fns date: the
`format(d, "yyyy-MM-dd")` key, the `format(d, "HH:mm")` time of day, the
`getTime()` epoch value, and `differenceInMinutes(d, new Date(2024, 0, 1))`. -/
structure DateTime where
  dayKey : String
  hhmm : String
  epochMs : Int
  minutesSince2024 : Int
deriving DecidableEq

/-- Embedding of the `location` sub-object of a staff `User`. -/
structure UserLocation where
  city : Option String
deriving DecidableEq

/-- Embedding of the `schedule` sub-object of a staff `User`. -/
structure UserSchedule where
  workingLateShift : Option Bool
  shiftStartTime : Option String
  shiftEndTime : Option String
deriving DecidableEq

/-- Embedding of the fields of `User` read by the schedule generator. -/
structure User where
  id : Option String
  name : Option String
  role : Option String
  location : Option UserLocation
  schedule : Option UserSchedule
deriving DecidableEq

/-- Embedding of the fields of `Job` read by the schedule generator; `dueDate`
is the parsed form of the ISO string (`none` models a missing, empty or
unparseable due date). `RiskAddress` is the legacy-cased alias field. -/
structure Job where
  id : Option String
  assignedTo : Option String
  dueDate : Option DateTime
  category : Option String
  riskAddress : Option String
  RiskAddress : Option String
  title : Option String
deriving DecidableEq

/-- Entry kinds of a `ScheduleEntry` (`"base" | "job" | "travel" | "end"`). -/
inductive EntryType where
  | base
  | job
  | travel
  | endOfShift
deriving DecidableEq

/-- CSV rendering of an entry type (the string stored in the source's union
type). -/
def entryTypeStr : EntryType → String
  | EntryType.base => "base"
  | EntryType.job => "job"
  | EntryType.travel => "travel"
  | EntryType.endOfShift => "end"

/-- Embedding of the `ScheduleEntry` interface (source lines 43-51). -/
structure ScheduleEntry where
  time : String
  type : EntryType
  location : String
  description : String
  jobId : Option String
  estimatedDuration : Option Int
  coordinates : Option (ℝ × ℝ)

/-- One entry of the `BASE_LOCATIONS` table. -/
structure BaseLocation where
  address : String
  coordinates : ℝ × ℝ

/-- The Johannesburg base (source lines 60-63). -/
noncomputable def johannesburgBase : BaseLocation :=
  { address := "5 Thora Cres, Wynberg, Sandton, 2090", coordinates := (-26.1076, 28.0567) }

/-- The Cape Town base (source lines 64-67). -/
noncomputable def capeTownBase : BaseLocation :=
  { address := "98 Marine Dr, Paarden Eiland, Cape Town, 7405", coordinates := (-33.8903, 18.4979) }

/-- Keyed lookup into the two-entry `BASE_LOCATIONS` object. -/
noncomputable def BASE_LOCATIONS (key : String) : Option BaseLocation :=
  if key = "Johannesburg" then some johannesburgBase
  else if key = "Cape Town" then some capeTownBase
  else none

/-! ## Shift policy resolver (source lines 165-167 and 243-249) -/

/-- Embedding of `isLateShiftWeek`: week index by floor division of the minute
distance from 2024-01-01, late iff the JavaScript `%`-remainder by 2 equals 1. -/
def isLateShiftWeek (date : DateTime) : Bool :=
  let weekNumber := date.minutesSince2024.fdiv (7 * 24 * 60)
  weekNumber.tmod 2 == 1

/-- Embedding of line 165-166,
`staffMember.schedule?.workingLateShift || isLateShiftWeek(date)`: the fallback
is evaluated whenever the left operand is not the truthy value `true`. -/
def resolveIsLateShift (staffMember : User) (date : DateTime) : Bool :=
  match staffMember.schedule.bind (fun sc => sc.workingLateShift) with
  | some true => true
  | _ => isLateShiftWeek date

/-- Embedding of line 167: `isLateShift ? "19:00" : "17:00"`. -/
def resolveShiftEnd (staffMember : User) (date : DateTime) : String :=
  if resolveIsLateShift staffMember date then "19:00" else "17:00"

/-! ## Day schedule builder (source lines 130-241) -/

/-- Filter predicate of source lines 142-148: the job is assigned to this staff
member (strict equality with the — truthy — staff id) and its due date parses
to the same calendar day as `date`. -/
def jobMatches (staffMember : User) (date : DateTime) (job : Job) : Bool :=
  job.assignedTo == staffMember.id &&
    match job.dueDate with
    | some dt => dt.dayKey == date.dayKey
    | none => false

/-- The day's matching jobs, in input order (source lines 142-148). -/
def dayJobsOf (jobs : List Job) (staffMember : User) (date : DateTime) : List Job :=
  jobs.filter (jobMatches staffMember date)

/-- The sort comparator of source lines 151-154:
`new Date(a.dueDate).getTime() - new Date(b.dueDate).getTime()`, with `0` when
either due date is missing. -/
def jobSortCompare (a b : Job) : Int :=
  match a.dueDate, b.dueDate with
  | some x, some y => x.epochMs - y.epochMs
  | _, _ => 0

/-- Non-strict order induced by the comparator: `a` may stay before `b` iff the
comparator is at most `0`; a stable sort by this relation models the
(stable) JavaScript `Array.prototype.sort`. -/
def jobSortLe (a b : Job) : Prop := jobSortCompare a b ≤ 0

instance : DecidableRel jobSortLe :=
  fun a b => inferInstanceAs (Decidable (jobSortCompare a b ≤ 0))

/-- The day's matching jobs sorted ascending by due timestamp (stable). -/
def sortedJobsOf (jobs : List Job) (staffMember : User) (date : DateTime) : List Job :=
  List.insertionSort jobSortLe (dayJobsOf jobs staffMember date)

/-- Base-location resolution of source lines 156-163: the staff city (with
truthiness fallback to `"Johannesburg"`), validated against `BASE_LOCATIONS`
with a second fallback to Johannesburg. -/
noncomputable def baseLocationOf (staffMember : User) : BaseLocation :=
  let baseLocationKey := jsOrStr (staffMember.location.bind (fun l => l.city)) "Johannesburg"
  match BASE_LOCATIONS baseLocationKey with
  | some loc => loc
  | none => johannesburgBase

/-- The `base` entry pushed at source lines 170-176: fixed time `"05:00"`. -/
noncomputable def baseEntryOf (staffMember : User) : ScheduleEntry :=
  { time := "05:00", type := EntryType.base,
    location := (baseLocationOf staffMember).address,
    description := "Start shift at base location",
    jobId := none, estimatedDuration := none,
    coordinates := some (baseLocationOf staffMember).coordinates }

/-- Job time of source line 189: `HH:mm` of the due date, `"08:00"` fallback. -/
def jobTimeOf (job : Job) : String :=
  match job.dueDate with
  | some dt => dt.hhmm
  | none => "08:00"

/-- Job display location of source line 190:
`job.riskAddress || job.RiskAddress || "Location not specified"`. -/
def jobLocationOf (job : Job) : String :=
  jsOrStr (jsOrOpt job.riskAddress job.RiskAddress) "Location not specified"

/-- The `job` entry pushed at source lines 211-218. -/
def jobEntryOf (job : Job) : ScheduleEntry :=
  { time := jobTimeOf job, type := EntryType.job,
    location := jobLocationOf job,
    description := jsOrStr job.title "Unnamed Job",
    jobId := job.id, estimatedDuration := some (getJobDuration job.category : Int),
    coordinates := none }

/-- Mutable state threaded through the job loop: `currentTime`,
`currentLocation`, and the number of `Math.random()` draws consumed so far. -/
structure BuilderState where
  currentTime : String
  currentLocation : ℝ × ℝ
  randCount : Nat

/-- One synthetic destination of source lines 194-197 / 222-225:
`{ lat: -26.2041 + Math.random() * 0.1, lng: 28.0473 + Math.random() * 0.1 }`,
reading two consecutive draws of the random stream. -/
noncomputable def jitteredPoint (rand : Nat → ℝ) (i : Nat) : ℝ × ℝ :=
  (-26.2041 + rand i * 0.1, 28.0473 + rand (i + 1) * 0.1)

/-- Embedding of the `sortedJobs.forEach` loop of source lines 182-226: a job
without a truthy id is skipped without touching the state; otherwise a travel
entry is pushed when `travelTime > 0 && jobTime` and the job entry follows;
the running time advances by the job's duration and the running location is
re-jittered (two more draws). -/
noncomputable def processJobs (rand : Nat → ℝ) : List Job → BuilderState → List ScheduleEntry × BuilderState
  | [], st => ([], st)
  | job :: rest, st =>
    if truthyStr job.id then
      let jobTime := jobTimeOf job
      let travelTime := estimateTravelTime st.currentLocation (jitteredPoint rand st.randCount)
      let travelEntries :=
        if 0 < travelTime ∧ jobTime ≠ "" then
          [{ time := subtractMinutes jobTime travelTime, type := EntryType.travel,
             location := "En route to " ++ jobLocationOf job,
             description := "Travel time: " ++ toString travelTime ++ " minutes",
             jobId := none, estimatedDuration := some travelTime, coordinates := none }]
        else []
      let jobDuration := getJobDuration (jsOrOpt job.category (some "Other"))
      let next := processJobs rand rest
        { currentTime := addMinutes jobTime (jobDuration : Int),
          currentLocation := jitteredPoint rand (st.randCount + 2),
          randCount := st.randCount + 4 }
      (travelEntries ++ jobEntryOf job :: next.1, next.2)
    else processJobs rand rest st

/-- Initial loop state of source lines 178-179. -/
noncomputable def initStateOf (staffMember : User) : BuilderState :=
  { currentTime := "05:00", currentLocation := (baseLocationOf staffMember).coordinates,
    randCount := 0 }

/-- Source line 229: the running time after the last job, or `"05:00"` when no
job was scheduled. -/
noncomputable def lastJobTimeOf (jobs : List Job) (rand : Nat → ℝ) (staffMember : User) (date : DateTime) : String :=
  if 0 < (sortedJobsOf jobs staffMember date).length then
    (processJobs rand (sortedJobsOf jobs staffMember date) (initStateOf staffMember)).2.currentTime
  else "05:00"

/-- Source lines 230-231: the end time is the running time when `compareTime`
ranks it strictly after the shift end, and the shift end otherwise. -/
noncomputable def dayEndTimeOf (jobs : List Job) (rand : Nat → ℝ) (staffMember : User) (date : DateTime) : String :=
  if 0 < compareTime (lastJobTimeOf jobs rand staffMember date) (resolveShiftEnd staffMember date) then
    lastJobTimeOf jobs rand staffMember date
  else resolveShiftEnd staffMember date

/-- The `end` entry pushed at source lines 233-238. -/
noncomputable def endEntryOf (jobs : List Job) (rand : Nat → ℝ) (staffMember : User) (date : DateTime) : ScheduleEntry :=
  { time := dayEndTimeOf jobs rand staffMember date, type := EntryType.endOfShift,
    location := "End of shift",
    description := "Shift ends " ++
      (if resolveIsLateShift staffMember date then "(Late Shift)" else "(Normal Shift)"),
    jobId := none, estimatedDuration := none, coordinates := none }

/-- Embedding of `generateDaySchedule` (source lines 130-241): the guard of
lines 137-140 returns `[]` when the staff member, its id, or the date is
missing; otherwise the base entry, the job/travel entries, and the end entry
are produced in order. -/
noncomputable def generateDaySchedule (jobs : List Job) (rand : Nat → ℝ)
    (staffMember : Option User) (date : Option DateTime) : List ScheduleEntry :=
  match staffMember, date with
  | some sm, some d =>
    if truthyStr sm.id then
      baseEntryOf sm ::
        ((processJobs rand (sortedJobsOf jobs sm d) (initStateOf sm)).1 ++
          [endEntryOf jobs rand sm d])
    else []
  | _, _ => []

/-! ## Week schedule aggregator (source lines 93-128) -/

/-- Embedding of `generateSchedules`, parameterised by the per-cell builder.
The source wraps each `generateDaySchedule` call in `try`/`catch`, recording
`[]` for a cell whose build throws; a thrown exception is modelled by
`Except.error`. Staff are pre-filtered to `role === "staff"` with a truthy id
(line 104), the redundant inner id check of lines 106-109 is kept, and falsy
days are skipped (lines 112-115). -/
def generateSchedulesWith (build : User → DateTime → Except String (List ScheduleEntry))
    (staff : List User) (weekDays : List (Option DateTime)) :
    List (String × List ScheduleEntry) :=
  (staff.filter (fun s => s.role == some "staff" && truthyStr s.id)).flatMap (fun sm =>
    if truthyStr sm.id then
      weekDays.filterMap (fun day? => day?.map (fun day =>
        let key := sm.id.getD "" ++ "-" ++ day.dayKey
        match build sm day with
        | Except.ok entries => (key, entries)
        | Except.error _ => (key, [])))
    else [])

/-- The actual aggregator: every cell is built by `generateDaySchedule`, which
is total in the embedding, so every build is `Except.ok`. -/
noncomputable def generateSchedules (jobs : List Job) (rand : Nat → ℝ)
    (staff : List User) (weekDays : List (Option DateTime)) :
    List (String × List ScheduleEntry) :=
  generateSchedulesWith
    (fun sm day => Except.ok (generateDaySchedule jobs rand (some sm) (some day)))
    staff weekDays

/-! ## CSV exporter (source lines 303-345) -/

/-- The header row `headers.join(",")` of source lines 307-315. -/
def csvHeaderRow : String :=
  String.intercalate "," ["Date", "Time", "Type", "Location", "Description", "Duration (min)"]

/-- One data row of source lines 322-331: the six fields joined with `","`,
location and description wrapped in double quotes, duration defaulted to 0. -/
def csvRowOf (day : DateTime) (entry : ScheduleEntry) : String :=
  String.intercalate ","
    [day.dayKey, entry.time, entryTypeStr entry.type,
     "\"" ++ entry.location ++ "\"", "\"" ++ entry.description ++ "\"",
     toString (entry.estimatedDuration.getD 0)]

/-- Embedding of `exportScheduleCSV` (source lines 303-345) up to the DOM blob
download: `none` models the early `return` when the staff member is not found,
`some csvContent` the text handed to the `Blob`. The schedules record is an
association list keyed by `"{staffId}-{yyyy-MM-dd}"`. -/
def exportScheduleCSV (staff : List User) (schedules : List (String × List ScheduleEntry))
    (weekDays : List DateTime) (staffId : String) : Option String :=
  match staff.find? (fun s => s.id == some staffId) with
  | none => none
  | some _ =>
    let rows :=
      csvHeaderRow ::
        weekDays.flatMap (fun day =>
          let key := staffId ++ "-" ++ day.dayKey
          let daySchedule := (schedules.lookup key).getD []
          daySchedule.map (fun entry => csvRowOf day entry))
    some (String.intercalate "\n" rows)

/-! ## Specification-side definitions used to state the claims -/

/-- Due timestamp of a job (`0` for a missing due date); used to state the
ascending-order claim. -/
def dueTimestamp (j : Job) : Int :=
  match j.dueDate with
  | some dt => dt.epochMs
  | none => 0

/-- Ascending order on jobs by due timestamp. -/
def dueLe (a b : Job) : Prop := dueTimestamp a ≤ dueTimestamp b

/-- Staff member with the nested `schedule.shiftStartTime` field replaced;
used to state that the builder never consults `shiftStartTime`. -/
def withShiftStartTime (sm : User) (v : Option String) : User :=
  { sm with schedule := sm.schedule.map (fun sc => { sc with shiftStartTime := v }) }

/-- Shape of the middle section of a day schedule, claim C7: per job in order,
either the job is skipped (no truthy id), or an optional travel entry is
immediately followed by that job's entry. -/
inductive TravelJobBlocks : List Job → List ScheduleEntry → Prop where
  | nil : TravelJobBlocks [] []
  | skip {j : Job} {js : List Job} {es : List ScheduleEntry} :
      truthyStr j.id = false → TravelJobBlocks js es → TravelJobBlocks (j :: js) es
  | withTravel {j : Job} {js : List Job} {t : ScheduleEntry} {es : List ScheduleEntry} :
      truthyStr j.id = true → t.type = EntryType.travel →
      TravelJobBlocks js es → TravelJobBlocks (j :: js) (t :: jobEntryOf j :: es)
  | noTravel {j : Job} {js : List Job} {es : List ScheduleEntry} :
      truthyStr j.id = true → TravelJobBlocks js es → TravelJobBlocks (j :: js) (jobEntryOf j :: es)

/-- Strengthened shape for claim C10: every kept job is immediately preceded by
a travel entry whose duration is in `[15, 60]`. -/
inductive TravelAlwaysPaired : List Job → List ScheduleEntry → Prop where
  | nil : TravelAlwaysPaired [] []
  | skip {j : Job} {js : List Job} {es : List ScheduleEntry} :
      truthyStr j.id = false → TravelAlwaysPaired js es → TravelAlwaysPaired (j :: js) es
  | pair {j : Job} {js : List Job} {t : ScheduleEntry} {es : List ScheduleEntry} :
      truthyStr j.id = true → t.type = EntryType.travel →
      (∃ dur : Int, t.estimatedDuration = some dur ∧ 15 ≤ dur ∧ dur ≤ 60) →
      TravelAlwaysPaired js es → TravelAlwaysPaired (j :: js) (t :: jobEntryOf j :: es)

/-! ## Concrete sample inputs used by counterexamples and witnesses -/

/-- Constant random stream used by witnesses (any stream works). -/
noncomputable def randZero : Nat → ℝ := fun _ => 0

/-- A valid staff member with no explicit schedule settings. -/
def staffAlice : User :=
  { id := some "s1", name := some "Alice", role := some "staff", location := none,
    schedule := none }

/-- Schedule settings with `workingLateShift` explicitly set to `false`. -/
def scheduleExplicitFalse : UserSchedule :=
  { workingLateShift := some false, shiftStartTime := none, shiftEndTime := none }

/-- A valid staff member whose `workingLateShift` is explicitly `false`. -/
def staffExplicitFalse : User :=
  { id := some "s1", name := some "Bob", role := some "staff", location := none,
    schedule := some scheduleExplicitFalse }

/-- A date in an odd-index week (10080 minutes = exactly one week after
2024-01-01), so `isLateShiftWeek` holds on it. -/
def dateOddWeek : DateTime :=
  { dayKey := "2024-01-08", hhmm := "00:00", epochMs := 1704672000000, minutesSince2024 := 10080 }

/-- Due date 08:00 on the odd week's Monday. -/
def dueMonday8am : DateTime :=
  { dayKey := "2024-01-08", hhmm := "08:00", epochMs := 1704700800000, minutesSince2024 := 10560 }

/-- A well-formed job assigned to `"s1"` and due on `dateOddWeek`. -/
def jobLeak : Job :=
  { id := some "j1", assignedTo := some "s1", dueDate := some dueMonday8am,
    category := some "Leak Detection", riskAddress := some "123 Main Rd", RiskAddress := none,
    title := some "Fix leak" }

/-- A job assigned to a different staff member. -/
def jobOtherStaff : Job :=
  { id := some "j2", assignedTo := some "s2", dueDate := some dueMonday8am,
    category := some "Drain Blockage", riskAddress := none, RiskAddress := none,
    title := none }

/-- A malformed job without an id (assigned and due, but skipped in the loop). -/
def jobNoId : Job :=
  { id := none, assignedTo := some "s1", dueDate := some dueMonday8am,
    category := none, riskAddress := none, RiskAddress := none, title := none }

/-- An arbitrary loop state used by the C8 witness. -/
noncomputable def stateZero : BuilderState :=
  { currentTime := "05:00", currentLocation := (0, 0), randCount := 0 }

/-- A concrete schedule entry (no coordinates) used by the C9 witness. -/
def entryLeak : ScheduleEntry :=
  { time := "08:00", type := EntryType.job, location := "123 Main Rd",
    description := "Fix leak", jobId := some "j1", estimatedDuration := some 120,
    coordinates := none }

/-! ## Shared helper lemmas -/

/-- Bounds of the clamp in `estimateTravelTime`: always within `[15, 60]`. -/
theorem estimateTravelTime_bounds (fromLoc toLoc : ℝ × ℝ) :
    15 ≤ estimateTravelTime fromLoc toLoc ∧ estimateTravelTime fromLoc toLoc ≤ 60 := by
  unfold estimateTravelTime
  exact ⟨le_max_left _ _, max_le (by norm_num) (min_le_left _ _)⟩

/-- Comparing a time with itself gives `0`. -/
theorem compareTime_self (s : String) : compareTime s s = 0 := by
  simp only [compareTime]
  omega

/-- Truncated remainder of a non-positive number is non-positive (JavaScript
`%` keeps the dividend's sign). -/
theorem tmod_nonpos_of_nonpos : ∀ (a b : Int), a ≤ 0 → a.tmod b ≤ 0 := by
  intro a b h
  match a, b with
  | Int.ofNat m, b =>
      have hm : m = 0 := by
        simp only [Int.ofNat_eq_coe] at h
        omega
      subst hm
      simp
  | Int.negSucc m, Int.ofNat n =>
      have he : Int.tmod (Int.negSucc m) (Int.ofNat n) = -(Int.ofNat (Nat.succ m % n)) := rfl
      rw [he]
      simp only [Int.ofNat_eq_coe]
      omega
  | Int.negSucc m, Int.negSucc n =>
      have he : Int.tmod (Int.negSucc m) (Int.negSucc n) = -(Int.ofNat (Nat.succ m % Nat.succ n)) := rfl
      rw [he]
      simp only [Int.ofNat_eq_coe]
      omega

/-! ## C1: explicit workingLateShift -/

/-- C1 counterexample: for the staff member whose `workingLateShift` is
explicitly `false` and a date in an odd week, the builder's shift resolution
returns `true` (the fallback `isLateShiftWeek` IS consulted) and the shift end
is `"19:00"`, not `"17:00"` — refuting the claim that an explicitly set value
is always used directly. -/
theorem C1_counterexample :
    staffExplicitFalse.schedule.bind (fun sc => sc.workingLateShift) = some false ∧
    isLateShiftWeek dateOddWeek = true ∧
    resolveIsLateShift staffExplicitFalse dateOddWeek = true ∧
    resolveShiftEnd staffExplicitFalse dateOddWeek = "19:00" ∧
    (generateDaySchedule [] randZero (some staffExplicitFalse) (some dateOddWeek)).map
      (fun e => e.time) = ["05:00", "19:00"] := by
  refine ⟨rfl, by decide, by decide, by decide, by decide⟩

/-- C1 (amended): when `schedule.workingLateShift` is explicitly set to `b`,
the shift resolution of the day-schedule builder is `b || isLateShiftWeek date`
— an explicit `true` is used directly, while an explicit `false` behaves like
an unset value and the alternating-week fallback decides — and the shift end
is `"19:00"` exactly when that disjunction holds, `"17:00"` otherwise. -/
theorem C1_amended_explicit_true_only (sm : User) (date : DateTime) (b : Bool)
    (hb : sm.schedule.bind (fun sc => sc.workingLateShift) = some b) :
    resolveIsLateShift sm date = (b || isLateShiftWeek date) ∧
    resolveShiftEnd sm date =
      (if (b || isLateShiftWeek date) = true then "19:00" else "17:00") := by
  have h1 : resolveIsLateShift sm date = (b || isLateShiftWeek date) := by
    unfold resolveIsLateShift
    rw [hb]
    cases b
    · simp
    · simp
  refine ⟨h1, ?_⟩
  unfold resolveShiftEnd
  rw [h1]

/-- C1 witness: the amended statement applied to the explicit-`false` staff
member on an odd week. -/
theorem C1_amended_witness :
    staffExplicitFalse.schedule.bind (fun sc => sc.workingLateShift) = some false ∧
    resolveIsLateShift staffExplicitFalse dateOddWeek =
      (false || isLateShiftWeek dateOddWeek) :=
  ⟨rfl, (C1_amended_explicit_true_only staffExplicitFalse dateOddWeek false rfl).1⟩

/-! ## C2: travel-time formula and bounds -/

/-- C2: `estimateTravelTime` equals the rounded, scaled Euclidean distance in
raw degree space clamped to `[15, 60]`, and its value always lies in
`[15, 60]` (it is an integer by type). -/
theorem C2_estimateTravelTime_formula_and_bounds (fromLoc toLoc : ℝ × ℝ) :
    estimateTravelTime fromLoc toLoc =
      max 15 (min 60 (round
        (Real.sqrt ((toLoc.1 - fromLoc.1) ^ 2 + (toLoc.2 - fromLoc.2) ^ 2) * 3000))) ∧
    15 ≤ estimateTravelTime fromLoc toLoc ∧ estimateTravelTime fromLoc toLoc ≤ 60 :=
  ⟨rfl, estimateTravelTime_bounds fromLoc toLoc⟩

/-! ## C3: duration policy table -/

/-- C3: `getJobDuration` is total with the exact fixed table, returns a
positive integer for every input, and returns 60 for every category outside
the table including a missing one. -/
theorem C3_getJobDuration_table_total :
    getJobDuration (some "Geyser Replacement") = 180 ∧
    getJobDuration (some "Geyser Assessment") = 60 ∧
    getJobDuration (some "Leak Detection") = 120 ∧
    getJobDuration (some "Drain Blockage") = 90 ∧
    getJobDuration (some "Camera Inspection") = 75 ∧
    getJobDuration (some "Toilet/Shower") = 90 ∧
    getJobDuration none = 60 ∧
    (∀ c : Option String, 0 < getJobDuration c) ∧
    (∀ c : Option String,
      c ∉ [some "Geyser Replacement", some "Geyser Assessment", some "Leak Detection",
        some "Drain Blockage", some "Camera Inspection", some "Toilet/Shower"] →
      getJobDuration c = 60) := by
  refine ⟨rfl, rfl, rfl, rfl, rfl, rfl, rfl, ?_, ?_⟩
  · intro c
    unfold getJobDuration
    split <;> omega
  · intro c hc
    unfold getJobDuration
    split <;> simp_all

/-- C3 witness: the positivity and default clauses at concrete categories. -/
theorem C3_witness :
    0 < getJobDuration none ∧ getJobDuration (some "Solar Install") = 60 :=
  ⟨C3_getJobDuration_table_total.2.2.2.2.2.2.2.1 none,
   C3_getJobDuration_table_total.2.2.2.2.2.2.2.2 (some "Solar Install") (by decide)⟩

/-! ## C4: addMinutes wraps, subtractMinutes clamps -/

/-- C4: on a time string parsing to a well-formed zero-padded `HH:MM` value
and a non-negative number of minutes, `addMinutes` formats
`(hour*60+minute+minutes) mod 1440` (wrapping past midnight), while
`subtractMinutes` formats `hour*60+minute-minutes` clamped below at `0`
(Nat truncated subtraction), i.e. it never wraps negative. -/
theorem C4_addMinutes_wraps_subtractMinutes_clamps (s : String) (h m k : Nat)
    (hp : parseHM s = ((h : Int), (m : Int))) (hh : h < 24) (hm : m < 60) :
    addMinutes s (k : Int) = formatHM ((h * 60 + m + k) % 1440) ∧
    subtractMinutes s (k : Int) = formatHM (h * 60 + m - k) := by
  constructor
  · simp only [addMinutes, hp]
    have hnn : (0 : Int) ≤ (h : Int) * 60 + m + k := by positivity
    have e0 : ((h : Int) * 60 + m + k).fdiv 60 = ((h : Int) * 60 + m + k) / 60 :=
      Int.fdiv_eq_ediv _ (by norm_num)
    have e1 : ((((h : Int) * 60 + m + k)) / 60).tmod 24 =
        (((h * 60 + m + k) % 1440 / 60 : Nat) : Int) := by
      rw [Int.tmod_eq_emod (Int.ediv_nonneg hnn (by norm_num)) (by norm_num)]
      omega
    have e2 : ((h : Int) * 60 + m + k).tmod 60 =
        (((h * 60 + m + k) % 1440 % 60 : Nat) : Int) := by
      rw [Int.tmod_eq_emod hnn (by norm_num)]
      omega
    rw [formatHM, e0, e1, e2]
  · simp only [subtractMinutes, hp]
    have e0 : ((h : Int) * 60 + m - k).fdiv 60 = ((h : Int) * 60 + m - k) / 60 :=
      Int.fdiv_eq_ediv _ (by norm_num)
    rcases le_or_lt (k : Int) ((h : Int) * 60 + m) with hk | hk
    · have hnn : (0 : Int) ≤ (h : Int) * 60 + m - k := by omega
      have e1 : max 0 (((h : Int) * 60 + m - k) / 60) =
          (((h * 60 + m - k) / 60 : Nat) : Int) := by
        omega
      have e2 : max 0 (((h : Int) * 60 + m - k).tmod 60) =
          (((h * 60 + m - k) % 60 : Nat) : Int) := by
        rw [Int.tmod_eq_emod hnn (by norm_num)]
        omega
      rw [formatHM, e0, e1, e2]
    · have hneg : ((h : Int) * 60 + m - k) ≤ 0 := by omega
      have e1 : max 0 (((h : Int) * 60 + m - k) / 60) =
          (((h * 60 + m - k) / 60 : Nat) : Int) := by
        omega
      have e2 : max 0 (((h : Int) * 60 + m - k).tmod 60) =
          (((h * 60 + m - k) % 60 : Nat) : Int) := by
        have := tmod_nonpos_of_nonpos ((h : Int) * 60 + m - k) 60 hneg
        omega
      rw [formatHM, e0, e1, e2]

/-- C4 witness: wrap at `"23:50" + 20 = "00:10"`, clamp at
`"00:10" - 30 = "00:00"`. -/
theorem C4_witness :
    parseHM "23:50" = ((23 : Int), (50 : Int)) ∧ addMinutes "23:50" 20 = "00:10" ∧
    parseHM "00:10" = ((0 : Int), (10 : Int)) ∧ subtractMinutes "00:10" 30 = "00:00" := by
  refine ⟨by decide, ?_, by decide, ?_⟩
  · have ha := (C4_addMinutes_wraps_subtractMinutes_clamps "23:50" 23 50 20
      (by decide) (by decide) (by decide)).1
    rw [show ((20 : Nat) : Int) = (20 : Int) from rfl] at ha
    rw [ha]
    decide
  · have hs := (C4_addMinutes_wraps_subtractMinutes_clamps "00:10" 0 10 30
      (by decide) (by decide) (by decide)).2
    rw [show ((30 : Nat) : Int) = (30 : Int) from rfl] at hs
    rw [hs]
    decide

/-! ## C5: end-time floor -/

/-- C5: for every staff member with a truthy id, every date, job list and
random stream, the last entry of the generated day schedule is the end entry;
its time is the running current time when `compareTime` ranks it strictly
after the resolved shift end, and the shift end otherwise — hence by
`compareTime` it is never earlier than the shift end. -/
theorem C5_end_time_floor (jobs : List Job) (rand : Nat → ℝ) (sm : User) (d : DateTime)
    (hid : truthyStr sm.id = true) :
    (generateDaySchedule jobs rand (some sm) (some d)).getLast? = some (endEntryOf jobs rand sm d) ∧
    (endEntryOf jobs rand sm d).time = dayEndTimeOf jobs rand sm d ∧
    dayEndTimeOf jobs rand sm d =
      (if 0 < compareTime (lastJobTimeOf jobs rand sm d) (resolveShiftEnd sm d) then
        lastJobTimeOf jobs rand sm d else resolveShiftEnd sm d) ∧
    0 ≤ compareTime (dayEndTimeOf jobs rand sm d) (resolveShiftEnd sm d) := by
  refine ⟨?_, rfl, rfl, ?_⟩
  · simp only [generateDaySchedule, if_pos hid]
    rw [show baseEntryOf sm ::
        ((processJobs rand (sortedJobsOf jobs sm d) (initStateOf sm)).1 ++
          [endEntryOf jobs rand sm d]) =
      (baseEntryOf sm :: (processJobs rand (sortedJobsOf jobs sm d) (initStateOf sm)).1) ++
        [endEntryOf jobs rand sm d] from rfl]
    exact List.getLast?_concat _
  · unfold dayEndTimeOf
    split
    · next hgt => omega
    · rw [compareTime_self]

/-- C5 witness: the floor property at a concrete staff member and date. -/
theorem C5_witness :
    truthyStr staffAlice.id = true ∧
    0 ≤ compareTime (dayEndTimeOf [] randZero staffAlice dateOddWeek)
      (resolveShiftEnd staffAlice dateOddWeek) :=
  ⟨by decide, (C5_end_time_floor [] randZero staffAlice dateOddWeek (by decide)).2.2.2⟩

/-! ## C6: skip on empty -/

/-- C6: when no job in the list matches the staff member and date, the day
schedule is exactly the base entry (at `"05:00"`) followed by the end entry at
the resolved shift end; `compareTime` indeed ranks `"05:00"` before both
possible shift ends. -/
theorem C6_skip_on_empty (jobs : List Job) (rand : Nat → ℝ) (sm : User) (d : DateTime)
    (hid : truthyStr sm.id = true)
    (hnone : ∀ job ∈ jobs, jobMatches sm d job = false) :
    generateDaySchedule jobs rand (some sm) (some d) =
      [baseEntryOf sm, endEntryOf jobs rand sm d] ∧
    (baseEntryOf sm).time = "05:00" ∧
    (endEntryOf jobs rand sm d).time = resolveShiftEnd sm d ∧
    compareTime "05:00" "17:00" < 0 ∧ compareTime "05:00" "19:00" < 0 := by
  have hday : dayJobsOf jobs sm d = [] := by
    unfold dayJobsOf
    rw [List.filter_eq_nil_iff]
    intro a ha
    simp [hnone a ha]
  have hs : sortedJobsOf jobs sm d = [] := by
    unfold sortedJobsOf
    rw [hday]
    rfl
  have hlast : lastJobTimeOf jobs rand sm d = "05:00" := by
    unfold lastJobTimeOf
    rw [hs]
    simp
  have hend : dayEndTimeOf jobs rand sm d = resolveShiftEnd sm d := by
    unfold dayEndTimeOf
    rw [hlast]
    unfold resolveShiftEnd
    cases resolveIsLateShift sm d <;> simp <;> decide
  refine ⟨?_, rfl, hend, by decide, by decide⟩
  simp only [generateDaySchedule, if_pos hid, hs]
  rfl

/-- C6 witness: a staff member whose only candidate job belongs to someone
else yields exactly the base and end entries. -/
theorem C6_witness :
    truthyStr staffAlice.id = true ∧
    (∀ job ∈ [jobOtherStaff], jobMatches staffAlice dateOddWeek job = false) ∧
    generateDaySchedule [jobOtherStaff] randZero (some staffAlice) (some dateOddWeek) =
      [baseEntryOf staffAlice, endEntryOf [jobOtherStaff] randZero staffAlice dateOddWeek] :=
  ⟨by decide, by decide,
    (C6_skip_on_empty [jobOtherStaff] randZero staffAlice dateOddWeek
      (by decide) (by decide)).1⟩

/-! ## C7: day-schedule shape -/

/-- The loop output always has the block shape: per job in order, skipped when
the id is not truthy, otherwise an optional travel entry immediately followed
by the job's entry. -/
theorem processJobs_blocks (rand : Nat → ℝ) :
    ∀ (l : List Job) (st : BuilderState), TravelJobBlocks l (processJobs rand l st).1 := by
  intro l
  induction l with
  | nil =>
      intro st
      exact TravelJobBlocks.nil
  | cons j rest ih =>
      intro st
      cases hj : truthyStr j.id with
      | false =>
          simp only [processJobs, hj, Bool.false_eq_true, if_false]
          exact TravelJobBlocks.skip hj (ih st)
      | true =>
          simp only [processJobs, hj, if_true]
          split
          · exact TravelJobBlocks.withTravel hj rfl (ih _)
          · rw [List.nil_append]
            exact TravelJobBlocks.noTravel hj (ih _)

/-- Every job kept by the day filter has a parsed due date. -/
theorem jobMatches_dueDate_isSome {sm : User} {d : DateTime} {j : Job}
    (h : jobMatches sm d j = true) : j.dueDate.isSome := by
  unfold jobMatches at h
  cases hd : j.dueDate with
  | none =>
      rw [hd] at h
      simp at h
  | some dt => rfl

/-- On jobs that both have a due date, the source comparator order coincides
with the ascending due-timestamp order. -/
theorem jobSortLe_iff_dueLe {a b : Job} (ha : a.dueDate.isSome) (hb : b.dueDate.isSome) :
    jobSortLe a b ↔ dueLe a b := by
  obtain ⟨x, hx⟩ := Option.isSome_iff_exists.mp ha
  obtain ⟨y, hy⟩ := Option.isSome_iff_exists.mp hb
  unfold jobSortLe jobSortCompare dueLe dueTimestamp
  simp only [hx, hy]
  omega

/-- Ordered insertion by the source comparator preserves due-timestamp
sortedness on lists of jobs that all have due dates. -/
theorem sorted_orderedInsert_dueLe (a : Job) (ha : a.dueDate.isSome) :
    ∀ (l : List Job), (∀ j ∈ l, j.dueDate.isSome) → List.Sorted dueLe l →
      List.Sorted dueLe (List.orderedInsert jobSortLe a l) := by
  intro l
  induction l with
  | nil =>
      intro _ _
      simp [List.orderedInsert]
  | cons b t ih =>
      intro hl hs
      rw [List.orderedInsert]
      have hb : b.dueDate.isSome := hl b (by simp)
      split
      · next hab =>
          rw [List.sorted_cons]
          refine ⟨?_, hs⟩
          intro x hx
          rcases List.mem_cons.mp hx with rfl | hxt
          · exact (jobSortLe_iff_dueLe ha hb).mp hab
          · have h1 : dueLe a b := (jobSortLe_iff_dueLe ha hb).mp hab
            have h2 : dueLe b x := (List.sorted_cons.mp hs).1 x hxt
            unfold dueLe at *
            omega
      · next hab =>
          rw [List.sorted_cons]
          constructor
          · intro x hx
            rcases (List.mem_orderedInsert _).mp hx with hxa | hxt
            · rw [hxa]
              have hnd : ¬ dueLe a b := fun hd => hab ((jobSortLe_iff_dueLe ha hb).mpr hd)
              unfold dueLe at *
              omega
            · exact (List.sorted_cons.mp hs).1 x hxt
          · exact ih (fun j hj => hl j (List.mem_cons_of_mem _ hj)) (List.sorted_cons.mp hs).2

/-- Insertion sort by the source comparator yields a due-timestamp sorted list
whenever every element has a due date. -/
theorem sorted_insertionSort_dueLe :
    ∀ (l : List Job), (∀ j ∈ l, j.dueDate.isSome) →
      List.Sorted dueLe (List.insertionSort jobSortLe l) := by
  intro l
  induction l with
  | nil =>
      intro _
      simp
  | cons x t ih =>
      intro hall
      rw [List.insertionSort]
      apply sorted_orderedInsert_dueLe x (hall x (by simp))
      · intro j hj
        have hmem : j ∈ t := (List.perm_insertionSort jobSortLe t).mem_iff.mp hj
        exact hall j (List.mem_cons_of_mem _ hmem)
      · exact ih (fun j hj => hall j (List.mem_cons_of_mem _ hj))

/-- The day's sorted job list is ascending in due timestamp. -/
theorem sorted_sortedJobsOf (jobs : List Job) (sm : User) (d : DateTime) :
    List.Sorted dueLe (sortedJobsOf jobs sm d) := by
  unfold sortedJobsOf
  apply sorted_insertionSort_dueLe
  intro j hj
  exact jobMatches_dueDate_isSome (List.mem_filter.mp hj).2

/-- The builder never reads `schedule.shiftStartTime`: replacing it changes
nothing in the generated day schedule. -/
theorem generateDaySchedule_withShiftStartTime (jobs : List Job) (rand : Nat → ℝ)
    (sm : User) (d : DateTime) (v : Option String) :
    generateDaySchedule jobs rand (some (withShiftStartTime sm v)) (some d) =
      generateDaySchedule jobs rand (some sm) (some d) := by
  have hwls : (withShiftStartTime sm v).schedule.bind (fun sc => sc.workingLateShift) =
      sm.schedule.bind (fun sc => sc.workingLateShift) := by
    unfold withShiftStartTime
    cases sm.schedule <;> rfl
  have hlate : resolveIsLateShift (withShiftStartTime sm v) d = resolveIsLateShift sm d := by
    unfold resolveIsLateShift
    rw [hwls]
  have hse : resolveShiftEnd (withShiftStartTime sm v) d = resolveShiftEnd sm d := by
    unfold resolveShiftEnd
    rw [hlate]
  have hlast : lastJobTimeOf jobs rand (withShiftStartTime sm v) d =
      lastJobTimeOf jobs rand sm d := rfl
  have hdet : dayEndTimeOf jobs rand (withShiftStartTime sm v) d =
      dayEndTimeOf jobs rand sm d := by
    unfold dayEndTimeOf
    rw [hse, hlast]
  have hend : endEntryOf jobs rand (withShiftStartTime sm v) d =
      endEntryOf jobs rand sm d := by
    unfold endEntryOf
    rw [hdet, hlate]
  simp only [generateDaySchedule]
  rw [hend]
  rfl

/-- C7: the generated day schedule is exactly one base entry at the fixed time
`"05:00"` carrying the resolved base address and coordinates, then the blocks
of the sorted matching jobs — per job an optional travel entry immediately
followed by that job's entry (at the job's due time, by `jobEntryOf`) — then a
single end entry; the sorted list is ascending by due timestamp and is a
permutation of the matching jobs; the configurable `shiftStartTime` field is
never consulted. -/
theorem C7_day_schedule_shape (jobs : List Job) (rand : Nat → ℝ) (sm : User) (d : DateTime)
    (hid : truthyStr sm.id = true) :
    generateDaySchedule jobs rand (some sm) (some d) =
      baseEntryOf sm ::
        ((processJobs rand (sortedJobsOf jobs sm d) (initStateOf sm)).1 ++
          [endEntryOf jobs rand sm d]) ∧
    (baseEntryOf sm).time = "05:00" ∧
    (baseEntryOf sm).location = (baseLocationOf sm).address ∧
    (baseEntryOf sm).coordinates = some (baseLocationOf sm).coordinates ∧
    TravelJobBlocks (sortedJobsOf jobs sm d)
      ((processJobs rand (sortedJobsOf jobs sm d) (initStateOf sm)).1) ∧
    List.Sorted dueLe (sortedJobsOf jobs sm d) ∧
    (sortedJobsOf jobs sm d).Perm (dayJobsOf jobs sm d) ∧
    (endEntryOf jobs rand sm d).type = EntryType.endOfShift ∧
    (∀ v : Option String,
      generateDaySchedule jobs rand (some (withShiftStartTime sm v)) (some d) =
        generateDaySchedule jobs rand (some sm) (some d)) := by
  refine ⟨?_, rfl, rfl, rfl, processJobs_blocks rand _ _, sorted_sortedJobsOf jobs sm d,
    List.perm_insertionSort _ _, rfl,
    fun v => generateDaySchedule_withShiftStartTime jobs rand sm d v⟩
  simp only [generateDaySchedule, if_pos hid]

/-- C7 witness: the shape at a concrete staff member, date and one job. -/
theorem C7_witness :
    truthyStr staffAlice.id = true ∧
    List.Sorted dueLe (sortedJobsOf [jobLeak] staffAlice dateOddWeek) ∧
    (sortedJobsOf [jobLeak] staffAlice dateOddWeek).Perm
      (dayJobsOf [jobLeak] staffAlice dateOddWeek) :=
  ⟨by decide,
    (C7_day_schedule_shape [jobLeak] randZero staffAlice dateOddWeek (by decide)).2.2.2.2.2.1,
    (C7_day_schedule_shape [jobLeak] randZero staffAlice dateOddWeek (by decide)).2.2.2.2.2.2.1⟩

/-! ## C8: error degradation -/

/-- C8: schedule generation never surfaces an error: the day builder returns
`[]` when the staff member, its id (truthiness), or the date is missing; a
malformed job without an id is skipped while the remaining jobs of the day are
still processed (state untouched); and the week aggregator turns a failing
per-cell build into an empty entry list for exactly that cell, leaving all
other cells' results unaffected. -/
theorem C8_error_degradation :
    (∀ (jobs : List Job) (rand : Nat → ℝ) (date? : Option DateTime),
      generateDaySchedule jobs rand none date? = []) ∧
    (∀ (jobs : List Job) (rand : Nat → ℝ) (sm : User) (date? : Option DateTime),
      truthyStr sm.id = false → generateDaySchedule jobs rand (some sm) date? = []) ∧
    (∀ (jobs : List Job) (rand : Nat → ℝ) (sm? : Option User),
      generateDaySchedule jobs rand sm? none = []) ∧
    (∀ (rand : Nat → ℝ) (before after : List Job) (bad : Job) (st : BuilderState),
      truthyStr bad.id = false →
      processJobs rand (before ++ bad :: after) st = processJobs rand (before ++ after) st) ∧
    (∀ (build : User → DateTime → Except String (List ScheduleEntry)) (staff : List User)
      (weekDays : List (Option DateTime)),
      generateSchedulesWith build staff weekDays =
        generateSchedulesWith
          (fun sm day => Except.ok (match build sm day with
            | Except.ok entries => entries
            | Except.error _ => [])) staff weekDays) := by
  refine ⟨fun jobs rand date? => rfl, ?_, ?_, ?_, ?_⟩
  · intro jobs rand sm date? hid
    cases date? with
    | none => rfl
    | some d =>
        simp only [generateDaySchedule, hid, Bool.false_eq_true, if_false]
  · intro jobs rand sm?
    cases sm? <;> rfl
  · intro rand before after bad st hbad
    induction before generalizing st with
    | nil =>
        simp only [List.nil_append, processJobs, hbad, Bool.false_eq_true, if_false]
    | cons j t ih =>
        simp only [List.cons_append, processJobs, List.append_eq]
        cases hj : truthyStr j.id with
        | false =>
            simp only [Bool.false_eq_true, if_false]
            exact ih st
        | true =>
            simp only [if_true]
            rw [ih]
  · intro build staff weekDays
    unfold generateSchedulesWith
    refine congrArg _ (funext fun sm => ?_)
    by_cases h : truthyStr sm.id = true
    · simp only [if_pos h]
      refine congrArg (fun f => List.filterMap f weekDays) (funext fun day? => ?_)
      cases day? with
      | none => rfl
      | some day =>
          simp only [Option.map_some']
          cases hb : build sm day <;> rfl
    · simp only [if_neg h]

/-- C8 witness: the guard, the malformed-job skip, and the error recovery at
concrete inputs. -/
theorem C8_witness :
    truthyStr jobNoId.id = false ∧
    generateDaySchedule [] randZero none (some dateOddWeek) = [] ∧
    processJobs randZero ([jobLeak] ++ jobNoId :: []) stateZero =
      processJobs randZero ([jobLeak] ++ []) stateZero ∧
    generateSchedulesWith (fun _ _ => Except.error "boom") [staffAlice] [some dateOddWeek] =
      generateSchedulesWith (fun sm day =>
        Except.ok (match (fun (_ : User) (_ : DateTime) =>
          (Except.error "boom" : Except String (List ScheduleEntry))) sm day with
          | Except.ok entries => entries
          | Except.error _ => [])) [staffAlice] [some dateOddWeek] :=
  ⟨by decide,
    C8_error_degradation.1 [] randZero (some dateOddWeek),
    C8_error_degradation.2.2.2.1 randZero [jobLeak] [] jobNoId stateZero (by decide),
    C8_error_degradation.2.2.2.2 (fun _ _ => Except.error "boom") [staffAlice] [some dateOddWeek]⟩

/-! ## C10: travel entries are always emitted -/

/-- When every job in the list has a non-empty due time, every kept job emits
a travel entry (the clamp makes the travel time at least 15, so the
`travelTime > 0` guard always passes) immediately followed by the job entry,
with travel duration in `[15, 60]`. -/
theorem processJobs_travelPaired (rand : Nat → ℝ) :
    ∀ (l : List Job) (st : BuilderState), (∀ j ∈ l, jobTimeOf j ≠ "") →
      TravelAlwaysPaired l (processJobs rand l st).1 := by
  intro l
  induction l with
  | nil =>
      intro st _
      exact TravelAlwaysPaired.nil
  | cons j rest ih =>
      intro st hall
      cases hj : truthyStr j.id with
      | false =>
          simp only [processJobs, hj, Bool.false_eq_true, if_false]
          exact TravelAlwaysPaired.skip hj (ih st (fun x hx => hall x (List.mem_cons_of_mem _ hx)))
      | true =>
          simp only [processJobs, hj, if_true]
          split
          · next hguard =>
              refine TravelAlwaysPaired.pair hj rfl ?_
                (ih _ (fun x hx => hall x (List.mem_cons_of_mem _ hx)))
              refine ⟨estimateTravelTime st.currentLocation (jitteredPoint rand st.randCount),
                rfl, ?_, ?_⟩
              · exact (estimateTravelTime_bounds _ _).1
              · exact (estimateTravelTime_bounds _ _).2
          · next hguard =>
              exfalso
              apply hguard
              constructor
              · have h15 := (estimateTravelTime_bounds st.currentLocation
                  (jitteredPoint rand st.randCount)).1
                omega
              · exact hall j (List.mem_cons_self _ _)

/-- A paired block list over a job list containing a truthy-id job is
non-empty. -/
theorem travelAlwaysPaired_ne_nil {l : List Job} {es : List ScheduleEntry}
    (h : TravelAlwaysPaired l es) (hex : ∃ j ∈ l, truthyStr j.id = true) : es ≠ [] := by
  induction h with
  | nil => simp at hex
  | skip hj _ ih =>
      obtain ⟨x, hx, hxt⟩ := hex
      rcases List.mem_cons.mp hx with rfl | hxm
      · rw [hj] at hxt
        cases hxt
      · exact ih ⟨x, hxm, hxt⟩
  | pair hj ht hd htail ih => simp

/-- C10: in a day schedule for a staff member with at least one valid matching
job (and well-formed due times), the middle section is non-empty and every job
entry is immediately preceded by a travel entry whose duration lies in
`[15, 60]` — the `travelTime > 0` guard is always satisfied because
`estimateTravelTime` returns at least 15. -/
theorem C10_travel_always_emitted (jobs : List Job) (rand : Nat → ℝ) (sm : User) (d : DateTime)
    (hid : truthyStr sm.id = true)
    (htimes : ∀ j ∈ jobs, j.dueDate.all (fun dt => dt.hhmm != "") = true)
    (hex : ∃ j ∈ jobs, jobMatches sm d j = true ∧ truthyStr j.id = true) :
    generateDaySchedule jobs rand (some sm) (some d) =
      baseEntryOf sm ::
        ((processJobs rand (sortedJobsOf jobs sm d) (initStateOf sm)).1 ++
          [endEntryOf jobs rand sm d]) ∧
    TravelAlwaysPaired (sortedJobsOf jobs sm d)
      ((processJobs rand (sortedJobsOf jobs sm d) (initStateOf sm)).1) ∧
    (processJobs rand (sortedJobsOf jobs sm d) (initStateOf sm)).1 ≠ [] := by
  have hall : ∀ j ∈ sortedJobsOf jobs sm d, jobTimeOf j ≠ "" := by
    intro j hj
    have hjday : j ∈ dayJobsOf jobs sm d :=
      (List.perm_insertionSort jobSortLe (dayJobsOf jobs sm d)).mem_iff.mp hj
    have hjmem := List.mem_filter.mp hjday
    have hsome := jobMatches_dueDate_isSome hjmem.2
    obtain ⟨dt, hdt⟩ := Option.isSome_iff_exists.mp hsome
    have hta := htimes j hjmem.1
    rw [hdt] at hta
    unfold jobTimeOf
    rw [hdt]
    simpa using hta
  have hpaired := processJobs_travelPaired rand (sortedJobsOf jobs sm d) (initStateOf sm) hall
  refine ⟨?_, hpaired, ?_⟩
  · simp only [generateDaySchedule, if_pos hid]
  · apply travelAlwaysPaired_ne_nil hpaired
    obtain ⟨j, hj, hmatch, hjid⟩ := hex
    exact ⟨j, (List.perm_insertionSort jobSortLe (dayJobsOf jobs sm d)).mem_iff.mpr
      (List.mem_filter.mpr ⟨hj, hmatch⟩), hjid⟩

/-- C10 witness: the paired shape at a concrete staff member with one job. -/
theorem C10_witness :
    truthyStr staffAlice.id = true ∧
    (∀ j ∈ [jobLeak], j.dueDate.all (fun dt => dt.hhmm != "") = true) ∧
    (∃ j ∈ [jobLeak], jobMatches staffAlice dateOddWeek j = true ∧ truthyStr j.id = true) ∧
    (processJobs randZero (sortedJobsOf [jobLeak] staffAlice dateOddWeek)
      (initStateOf staffAlice)).1 ≠ [] :=
  ⟨by decide, by decide, by decide,
    (C10_travel_always_emitted [jobLeak] randZero staffAlice dateOddWeek
      (by decide) (by decide) (by decide)).2.2⟩

/-! ## C9: CSV export shape -/

/-- C9: when the staff member is found, the exported CSV is the newline join
of exactly `N + 1` row strings — the header, then one row per schedule entry,
ordered day by day in week order following each day's list order — where each
row quotes the location and description fields and defaults the duration
column to 0 (`Option.getD 0` of `estimatedDuration`). -/
theorem C9_csv_shape (staff : List User) (schedules : List (String × List ScheduleEntry))
    (weekDays : List DateTime) (staffId : String) (sm : User)
    (hfind : staff.find? (fun s => s.id == some staffId) = some sm) :
    exportScheduleCSV staff schedules weekDays staffId =
      some (String.intercalate "\n"
        (csvHeaderRow ::
          weekDays.flatMap (fun day =>
            ((schedules.lookup (staffId ++ "-" ++ day.dayKey)).getD []).map
              (fun entry => csvRowOf day entry)))) ∧
    (csvHeaderRow ::
      weekDays.flatMap (fun day =>
        ((schedules.lookup (staffId ++ "-" ++ day.dayKey)).getD []).map
          (fun entry => csvRowOf day entry))).length =
      (weekDays.map (fun day =>
        ((schedules.lookup (staffId ++ "-" ++ day.dayKey)).getD []).length)).sum + 1 ∧
    (∀ (day : DateTime) (entry : ScheduleEntry),
      csvRowOf day entry =
        day.dayKey ++ "," ++ entry.time ++ "," ++ entryTypeStr entry.type ++ "," ++
        ("\"" ++ entry.location ++ "\"") ++ "," ++ ("\"" ++ entry.description ++ "\"") ++ "," ++
        toString (entry.estimatedDuration.getD 0)) := by
  refine ⟨?_, ?_, fun day entry => rfl⟩
  · unfold exportScheduleCSV
    rw [hfind]
  · simp only [List.length_cons, List.length_flatMap]
    refine congrArg (fun n => n + 1) (congrArg List.sum (List.map_congr_left ?_))
    intro day _
    simp [Function.comp, List.length_map]

/-- C9 witness: a one-day, one-entry week produces the expected two-line CSV
with quoted location and description. -/
theorem C9_witness :
    [staffAlice].find? (fun s => s.id == some "s1") = some staffAlice ∧
    exportScheduleCSV [staffAlice] [("s1-2024-01-08", [entryLeak])] [dateOddWeek] "s1" =
      some (String.intercalate "\n"
        (csvHeaderRow ::
          [dateOddWeek].flatMap (fun day =>
            (([("s1-2024-01-08", [entryLeak])].lookup ("s1" ++ "-" ++ day.dayKey)).getD []).map
              (fun entry => csvRowOf day entry)))) ∧
    exportScheduleCSV [staffAlice] [("s1-2024-01-08", [entryLeak])] [dateOddWeek] "s1" =
      some ("Date,Time,Type,Location,Description,Duration (min)\n2024-01-08,08:00,job,\"123 Main Rd\",\"Fix leak\",120") :=
  ⟨by decide,
    (C9_csv_shape [staffAlice] [("s1-2024-01-08", [entryLeak])] [dateOddWeek] "s1" staffAlice
      (by decide)).1,
    by decide⟩

end StaffSchedule
